import Mathlib

set_option autoImplicit false

namespace M3u8load

/-!
Shallow embedding of the m3u8load downloader (package cmd).  Machine-level
details that the source delegates to collaborators (HTTP transport, the m3u8
decoder, URL reference resolution) are passed in as explicit oracles; every
piece of control flow below is translated from the Go source.
-/

/-- Index of the last occurrence of a character in a character list, mirroring
the strings.LastIndex calls of the source (none corresponds to index -1). -/
def lastIndexOfChar (c : Char) : List Char → Option Nat
  | [] => none
  | x :: xs =>
    match lastIndexOfChar c xs with
    | some j => some (j + 1)
    | none => if x = c then some 0 else none

/-- getFileName from the source: the suffix of the URI after its last slash;
when the URI has no slash the index is -1 and the whole URI is returned. -/
def getFileName (uri : String) : String :=
  match lastIndexOfChar '/' uri.toList with
  | some i => String.mk (uri.toList.drop (i + 1))
  | none => String.mk uri.toList

/-- Association-list lookup standing for sync.Map.Load of the source; the Go
ok flag corresponds to isSome of the result. -/
def lookupA {β : Type} : List (String × β) → String → Option β
  | [], _ => none
  | (k, v) :: rest, key => if k = key then some v else lookupA rest key

/-- Store (upsert) standing for sync.Map.Store of the source. -/
def storeAssoc {β : Type} : List (String × β) → String → β → List (String × β)
  | [], k, v => [(k, v)]
  | (k', v') :: rest, k, v =>
    if k' = k then (k, v) :: rest else (k', v') :: storeAssoc rest k v

/-- Observable effects of one downloadSegment task. -/
structure SegTaskResult where
  networkFetched : Bool
  fileWritten : Option (String × List Nat)
  statusUpdate : Option (String × Bool)
  wgDone : Bool
  slotReleased : Bool
  barIncremented : Bool
  deriving DecidableEq

/-- downloadSegment from the source.  The status argument is the in-memory
sync.Map; the http oracle returns either a transport error or a status code
with a body.  Field by field: networkFetched records whether an HTTP request
was issued, statusUpdate the setMediaStatus call (keyed by getFileName),
wgDone the wg.Done() call and slotReleased the read from chLimit.  In the
source wg.Done() and the chLimit read sit after the closing brace of the
`index != -1` block, so every `return` inside that block skips them. -/
def downloadSegment (status : List (String × Bool))
    (http : String → Except String (Nat × List Nat)) (uri : String) : SegTaskResult :=
  if (lastIndexOfChar '/' uri.toList).isSome then
    if (lookupA status uri).isSome then
      ⟨false, none, none, false, false, false⟩
    else
      match http uri with
      | Except.error _ => ⟨true, none, some (getFileName uri, false), false, false, false⟩
      | Except.ok (code, body) =>
        if code ≠ 200 then ⟨true, none, some (getFileName uri, false), false, false, false⟩
        else ⟨true, some (getFileName uri, body), some (getFileName uri, true), true, true, true⟩
  else ⟨false, none, none, true, true, false⟩

/-- C1: the fetch task is claimed to release its concurrency slot and signal
completion on every exit path.  Evaluating the embedded downloadSegment at
failing inputs shows otherwise: a non-200 answer and a transport error both
take an early return that skips wg.Done and the semaphore read, while the
success path does release the slot. -/
theorem downloadSegment_slot_leak_on_error :
    (downloadSegment [] (fun _ => Except.ok (404, [])) "http://h/a.ts").slotReleased = false
    ∧ (downloadSegment [] (fun _ => Except.ok (404, [])) "http://h/a.ts").wgDone = false
    ∧ (downloadSegment [] (fun _ => Except.error "refused") "http://h/a.ts").slotReleased = false
    ∧ (downloadSegment [] (fun _ => Except.error "refused") "http://h/a.ts").wgDone = false
    ∧ (downloadSegment [] (fun _ => Except.ok (200, [7])) "http://h/a.ts").slotReleased = true := by
  decide

/-- C2: the fetch task is claimed to return without network I/O whenever the
checkpoint status under the derived name of the segment is true.  Evaluating the
embedded downloadSegment shows the skip consults the full URI as the lookup
key (and only key presence), while statuses are stored under getFileName, so
with status true under the derived name a.ts the request is still issued;
only a full-URI key, which the source never stores, would trigger the skip. -/
theorem downloadSegment_skip_never_fires :
    (downloadSegment [("a.ts", true)] (fun _ => Except.ok (200, [7])) "http://h/a.ts").networkFetched = true
    ∧ (downloadSegment [("a.ts", true)] (fun _ => Except.ok (200, [7])) "http://h/a.ts").fileWritten = some ("a.ts", [7])
    ∧ (downloadSegment [("http://h/a.ts", false)] (fun _ => Except.ok (200, [7])) "http://h/a.ts").networkFetched = false := by
  decide

/-- mergeMediaFile from the source.  The filesystem is a map from segment
name to file bytes; a missing file makes os.OpenFile fail, upon which the
source prints the error and returns.  The result is the byte sequence
appended to the artifact together with the name of the first missing
segment, if any: bytes already copied before the failure stay in the
artifact, later segments are not copied. -/
def mergeMediaFile (fs : String → Option (List Nat)) : List String → List Nat × Option String
  | [] => ([], none)
  | name :: rest =>
    match fs name with
    | none => ([], some name)
    | some b =>
      let r := mergeMediaFile fs rest
      (b ++ r.1, r.2)

/-- Concatenation of the per-segment file contents taken in segmentOrder
order, written after the words of the spec, for comparison with the
embedded mergeMediaFile. -/
def concatInOrder (fs : String → Option (List Nat)) : List String → List Nat
  | [] => []
  | name :: rest => (fs name).getD [] ++ concatInOrder fs rest

/-- Association-list lookup is invariant under permutation of the entries
when the keys are distinct: the file contents seen by the merge do not
depend on the order in which the fetch tasks completed their writes. -/
theorem lookupA_perm {β : Type} {ws ws' : List (String × β)} (hperm : ws.Perm ws') :
    (ws.map Prod.fst).Nodup → ∀ n, lookupA ws n = lookupA ws' n := by
  induction hperm with
  | nil => intro _ n; rfl
  | cons x h ih =>
    intro hnd n
    obtain ⟨k, v⟩ := x
    simp only [List.map_cons, List.nodup_cons] at hnd
    simp only [lookupA]
    by_cases hk : k = n
    · simp [hk]
    · simp only [hk, if_false]
      exact ih hnd.2 n
  | swap x y l =>
    intro hnd n
    obtain ⟨k₁, v₁⟩ := x
    obtain ⟨k₂, v₂⟩ := y
    simp only [List.map_cons, List.nodup_cons, List.mem_cons] at hnd
    have hne : ¬ k₂ = k₁ := fun hcontra => hnd.1 (Or.inl hcontra)
    simp only [lookupA]
    by_cases h₁ : k₂ = n <;> by_cases h₂ : k₁ = n
    · exact absurd (h₁.trans h₂.symm) hne
    · simp [h₁, h₂]
    · simp [h₁, h₂]
    · simp [h₁, h₂]
  | trans h₁ h₂ ih₁ ih₂ =>
    intro hnd n
    rw [ih₁ hnd n, ih₂ ((h₁.map Prod.fst).nodup_iff.mp hnd) n]

/-- C3: for every segmentOrder and every completion order of the fetch
tasks (any permutation ws' of the per-segment writes ws, with distinct
segment names), the merged artifact equals the concatenation of the
per-segment file contents taken in segmentOrder order, each file copied in
full, with no error. -/
theorem mergeMediaFile_order_preserved (ws ws' : List (String × List Nat)) (order : List String)
    (hperm : ws.Perm ws') (hnd : (ws.map Prod.fst).Nodup)
    (hcov : ∀ n ∈ order, (lookupA ws n).isSome) :
    mergeMediaFile (fun n => lookupA ws' n) order
      = (concatInOrder (fun n => lookupA ws n) order, none) := by
  induction order with
  | nil => rfl
  | cons name rest ih =>
    have hn := hcov name (List.mem_cons_self name rest)
    have heq : lookupA ws' name = lookupA ws name := (lookupA_perm hperm hnd name).symm
    obtain ⟨b, hb⟩ := Option.isSome_iff_exists.mp hn
    have ihr := ih (fun n hmem => hcov n (List.mem_cons_of_mem _ hmem))
    simp only [mergeMediaFile, concatInOrder, heq, hb, Option.getD_some, ihr]

/-- C3 witness: segmentOrder [A, B, C] with the fetch tasks completing in
the order C, A, B still merges to bytes(A) ++ bytes(B) ++ bytes(C). -/
theorem mergeMediaFile_order_preserved_witness :
    ([("A", [1]), ("B", [2]), ("C", [3])] : List (String × List Nat)).Perm
        [("C", [3]), ("A", [1]), ("B", [2])]
    ∧ mergeMediaFile (fun n => lookupA [("C", [3]), ("A", [1]), ("B", [2])] n) ["A", "B", "C"]
        = (concatInOrder (fun n => lookupA [("A", [1]), ("B", [2]), ("C", [3])] n) ["A", "B", "C"], none)
    ∧ concatInOrder (fun n => lookupA [("A", [1]), ("B", [2]), ("C", [3])] n) ["A", "B", "C"] = [1, 2, 3] :=
  ⟨by decide,
   mergeMediaFile_order_preserved _ _ _ (by decide) (by decide) (by decide),
   by decide⟩

/-- C6: when some name in segmentOrder has no segment file, the merge
aborts with a reported error identifying a missing segment: the error
component names a segment of segmentOrder whose file is absent, so the
failure is not silent. -/
theorem mergeMediaFile_abort_on_missing (fs : String → Option (List Nat)) (order : List String)
    (h : ∃ n, n ∈ order ∧ fs n = none) :
    ∃ m, (mergeMediaFile fs order).2 = some m ∧ m ∈ order ∧ fs m = none := by
  induction order with
  | nil =>
    obtain ⟨n, hn, _⟩ := h
    exact absurd hn (List.not_mem_nil n)
  | cons name rest ih =>
    cases hfn : fs name with
    | none =>
      exact ⟨name, by simp [mergeMediaFile, hfn], List.mem_cons_self name rest, hfn⟩
    | some b =>
      obtain ⟨n, hn, hnone⟩ := h
      have hr : ∃ n, n ∈ rest ∧ fs n = none := by
        rcases List.mem_cons.mp hn with h1 | h2
        · rw [h1] at hnone
          rw [hfn] at hnone
          cases hnone
        · exact ⟨n, h2, hnone⟩
      obtain ⟨m, hm1, hm2, hm3⟩ := ih hr
      refine ⟨m, ?_, List.mem_cons_of_mem _ hm2, hm3⟩
      simp [mergeMediaFile, hfn, hm1]

/-- C6 witness: segmentOrder [A, B] with only A fetched makes the merge
report segment B as missing. -/
theorem mergeMediaFile_abort_on_missing_witness :
    (∃ n, n ∈ ["A", "B"] ∧ lookupA [("A", [1])] n = none)
    ∧ ∃ m, (mergeMediaFile (fun n => lookupA [("A", [1])] n) ["A", "B"]).2 = some m
        ∧ m ∈ ["A", "B"] ∧ lookupA [("A", [1])] m = none :=
  ⟨⟨"B", by decide, by decide⟩,
   mergeMediaFile_abort_on_missing _ _ ⟨"B", by decide, by decide⟩⟩

/-- Hexadecimal digit value, as read by the percent-decoder of net/url. -/
def hexDigit (c : Char) : Option Nat :=
  if '0' ≤ c ∧ c ≤ '9' then some (c.toNat - '0'.toNat)
  else if 'a' ≤ c ∧ c ≤ 'f' then some (c.toNat - 'a'.toNat + 10)
  else if 'A' ≤ c ∧ c ≤ 'F' then some (c.toNat - 'A'.toNat + 10)
  else none

/-- Percent-decoding of url.QueryUnescape: a percent sign followed by two
hexadecimal digits becomes that byte, a plus sign becomes a space, and a
malformed escape is an error (none). -/
def unescapeChars : List Char → Option (List Char)
  | [] => some []
  | '%' :: a :: b :: rest =>
    match hexDigit a, hexDigit b, unescapeChars rest with
    | some ha, some hb, some r => some (Char.ofNat (16 * ha + hb) :: r)
    | _, _, _ => none
  | '%' :: _ => none
  | '+' :: rest =>
    match unescapeChars rest with
    | some r => some (' ' :: r)
    | none => none
  | c :: rest =>
    match unescapeChars rest with
    | some r => some (c :: r)
    | none => none

/-- strings.HasPrefix as the source calls it, computed on character lists. -/
def strHasPrefix (s pre : String) : Bool :=
  pre.toList.isPrefixOf s.toList

/-- getAbsoluteUri from the source.  Reference resolution of a relative URI
against the playlist URL is delegated to the resolveRef oracle (none for a
parse failure, on which the source dereferences a nil pointer and panics);
a QueryUnescape failure makes the source panic as well, so the function
answers none exactly on the panicking paths. -/
def getAbsoluteUri (resolveRef : String → String → Option String)
    (playlistUrl uriStr : String) : Option String :=
  match (if strHasPrefix uriStr "http" then some uriStr else resolveRef playlistUrl uriStr) with
  | none => none
  | some m =>
    match unescapeChars m.toList with
    | none => none
    | some cs => some (String.mk cs)

/-- getFilePath from the source: the prefix of the absolute URI up to and
including its last slash (empty when there is no slash). -/
def getFilePath (resolveRef : String → String → Option String)
    (playlistUrl uri : String) : Option String :=
  match getAbsoluteUri resolveRef playlistUrl uri with
  | none => none
  | some u =>
    match lastIndexOfChar '/' u.toList with
    | some i => some (String.mk (u.toList.take (i + 1)))
    | none => some ""

/-- Decoded playlist shapes delivered by the m3u8 decoder collaborator. -/
inductive Playlist where
  | media (segments : List String) (closed : Bool) (targetDuration : Nat)
  | master (variants : List (String × Nat))
  deriving DecidableEq

/-- Outcome of one manifest fetch: a connection error, or a body handed to
the decoder, which yields a playlist or a decode error. -/
inductive FetchResult where
  | connError
  | body (decoded : Except String Playlist)

/-- Events observable from the resolver. -/
inductive Event where
  | fetch (url : String)
  | sleep (seconds : Nat)
  | emit (uri : String)
  | closeChan
  | fatal (msg : String)
  | printLine (msg : String)
  deriving DecidableEq

/-- The bounded LRU cache of golang/groupcache/lru as the source uses it:
Get reports a hit and moves the key to the front, Add inserts at the front
(moving an existing key) and evicts the oldest entry beyond maxEntries. -/
structure LruCache where
  maxEntries : Nat
  entries : List String
  deriving DecidableEq

def LruCache.get (c : LruCache) (k : String) : Bool × LruCache :=
  if c.entries.contains k then (true, ⟨c.maxEntries, k :: c.entries.erase k⟩)
  else (false, c)

def LruCache.add (c : LruCache) (k : String) : LruCache :=
  let es := if c.entries.contains k then k :: c.entries.erase k else k :: c.entries
  ⟨c.maxEntries, if c.maxEntries < es.length then es.dropLast else es⟩

/-- The global downloadProcess structure of the source: the persisted Path,
MediaStatus and MediaList fields plus the in-memory status sync.Map. -/
structure DownloadProcessState where
  Path : String
  MediaStatus : List (String × Bool)
  MediaList : List String
  status : List (String × Bool)
  deriving DecidableEq

/-- The zero value the source starts from. -/
def emptyProcess : DownloadProcessState := ⟨"", [], [], []⟩

/-- First loop of the media branch of getPlaylist: derive each segment
name, set Path from the first segment while it is still empty, store
status false and append the name to MediaList; the Bool reports a panic in
getFilePath, after which the remaining segments are not recorded. -/
def initSegments (resolveRef : String → String → Option String) (playlistUrl : String) :
    List String → DownloadProcessState → DownloadProcessState × Bool
  | [], st => (st, false)
  | uri :: rest, st =>
    let name := getFileName uri
    match (if st.Path = "" then getFilePath resolveRef playlistUrl uri else some st.Path) with
    | none => (st, true)
    | some p =>
      initSegments resolveRef playlistUrl rest
        ⟨p, st.MediaStatus, st.MediaList ++ [name], storeAssoc st.status name false⟩

/-- Second loop of the media branch: absolutize each segment URI, consult
the LRU cache and emit the URIs not already cached; the Bool reports
whether the loop panicked on a malformed URI. -/
def emitLoop (resolveRef : String → String → Option String) (playlistUrl : String) :
    List String → LruCache → List Event × Bool
  | [], _ => ([], false)
  | uri :: rest, c =>
    match getAbsoluteUri resolveRef playlistUrl uri with
    | none => ([Event.fatal "invalid URL escape"], true)
    | some msURI =>
      let g := LruCache.get c msURI
      if g.1 then emitLoop resolveRef playlistUrl rest g.2
      else
        let r := emitLoop resolveRef playlistUrl rest (LruCache.add g.2 msURI)
        (Event.emit msURI :: r.1, r.2)

/-- Bandwidth selection loop of the master branch of getPlaylist: starting
from the empty URI and bandwidth 0, a variant replaces the current choice
exactly when its bandwidth strictly exceeds the running maximum. -/
def selectVariant (variants : List (String × Nat)) : String × Nat :=
  variants.foldl (fun acc v => if acc.2 < v.2 then v else acc) ("", 0)

/-- getPlaylist from the source; fuel bounds the master-manifest recursion
depth, which the source leaves to the call stack, and every theorem below
supplies enough fuel.  On a connection error the source logs, sleeps three
seconds and then hands the nil response body to the decoder, a nil
dereference that panics; on a decode error it panics; on a media playlist
it resets the status map, records every segment, emits the uncached
segment URIs and then either closes the channel (closed playlist) or
sleeps targetDuration seconds and returns without looping; on a master
playlist it selects the maximum-bandwidth variant and recurses on that
absolute URI of that variant. -/
def getPlaylist (resolveRef : String → String → Option String)
    (fetch : String → FetchResult) :
    Nat → String → DownloadProcessState → List Event × DownloadProcessState
  | 0, _, st => ([Event.fatal "recursion fuel exhausted"], st)
  | fuel + 1, urlStr, st =>
    match fetch urlStr with
    | FetchResult.connError =>
      ([Event.fetch urlStr, Event.sleep 3, Event.fatal "nil response body"], st)
    | FetchResult.body decoded =>
      match decoded with
      | Except.error e => ([Event.fetch urlStr, Event.fatal e], st)
      | Except.ok (Playlist.media segs closed td) =>
        let st0 : DownloadProcessState := ⟨st.Path, st.MediaStatus, st.MediaList, []⟩
        let i := initSegments resolveRef urlStr segs st0
        if i.2 then ([Event.fetch urlStr, Event.fatal "invalid URL escape"], i.1)
        else
          let r := emitLoop resolveRef urlStr segs ⟨1024, []⟩
          (Event.fetch urlStr :: r.1 ++
            (if r.2 then [] else if closed then [Event.closeChan] else [Event.sleep td]), i.1)
      | Except.ok (Playlist.master variants) =>
        let sel := selectVariant variants
        match getAbsoluteUri resolveRef urlStr sel.1 with
        | none => ([Event.fetch urlStr, Event.fatal "invalid URL escape"], st)
        | some msURI =>
          let r := getPlaylist resolveRef fetch fuel msURI st
          (Event.fetch urlStr :: Event.printLine ("master m3u8 url " ++ msURI) :: r.1, r.2)

/-- Number of fetch events in a resolver trace. -/
def countFetches (evs : List Event) : Nat :=
  (evs.filter (fun e => match e with | Event.fetch _ => true | _ => false)).length

/-- Manifest oracle serving one live (not closed) and one closed media
playlist. -/
def liveOracle : String → FetchResult := fun u =>
  if u = "http://h/live.m3u8" then
    FetchResult.body (Except.ok (Playlist.media ["http://h/s1.ts"] false 4))
  else if u = "http://h/vod.m3u8" then
    FetchResult.body (Except.ok (Playlist.media ["http://h/s1.ts"] true 4))
  else FetchResult.connError

/-- C4: evaluation at a failing input: a live media playlist (closed false,
targetDuration 4) makes the resolution pass emit its segment, sleep once
and return, issuing exactly one fetch, never re-fetching and never closing
the channel, while a closed playlist does close the channel after its
pass. -/
theorem getPlaylist_live_no_refetch :
    (getPlaylist (fun _ _ => none) liveOracle 5 "http://h/live.m3u8" emptyProcess).1
      = [Event.fetch "http://h/live.m3u8", Event.emit "http://h/s1.ts", Event.sleep 4]
    ∧ Event.closeChan ∉ (getPlaylist (fun _ _ => none) liveOracle 5 "http://h/live.m3u8" emptyProcess).1
    ∧ countFetches (getPlaylist (fun _ _ => none) liveOracle 5 "http://h/live.m3u8" emptyProcess).1 = 1
    ∧ (getPlaylist (fun _ _ => none) liveOracle 5 "http://h/vod.m3u8" emptyProcess).1
      = [Event.fetch "http://h/vod.m3u8", Event.emit "http://h/s1.ts", Event.closeChan] := by
  decide

/-- C5 counterexample: with every fetch failing at the transport layer, one
resolution pass issues exactly one fetch, not the fetch-plus-retry pair the
claim describes. -/
theorem getPlaylist_no_retry_counterexample :
    countFetches (getPlaylist (fun _ _ => none) (fun _ => FetchResult.connError) 5
        "http://h/x.m3u8" emptyProcess).1 = 1
    ∧ ¬ countFetches (getPlaylist (fun _ _ => none) (fun _ => FetchResult.connError) 5
        "http://h/x.m3u8" emptyProcess).1 = 2 := by
  decide

/-- C5 amended: on a connection error the resolver sleeps three seconds but
performs no retry: the pass consists of a single fetch, the sleep, and a
panic on the nil response body, so resolution aborts instead of decoding a
possibly empty body. -/
theorem getPlaylist_conn_error_behavior (resolveRef : String → String → Option String)
    (fetch : String → FetchResult) (fuel : Nat) (url : String) (st : DownloadProcessState)
    (h : fetch url = FetchResult.connError) :
    getPlaylist resolveRef fetch (fuel + 1) url st
      = ([Event.fetch url, Event.sleep 3, Event.fatal "nil response body"], st) := by
  simp [getPlaylist, h]

/-- C5 amended witness: a concrete always-failing transport. -/
theorem getPlaylist_conn_error_behavior_witness :
    ((fun _ : String => FetchResult.connError) "http://h/x.m3u8" = FetchResult.connError)
    ∧ getPlaylist (fun _ _ => none) (fun _ => FetchResult.connError) 1 "http://h/x.m3u8" emptyProcess
      = ([Event.fetch "http://h/x.m3u8", Event.sleep 3, Event.fatal "nil response body"],
         emptyProcess) :=
  ⟨rfl, getPlaylist_conn_error_behavior _ _ 0 _ _ rfl⟩

/-- Maximum declared bandwidth of a variant list. -/
def maxBandwidth : List (String × Nat) → Nat
  | [] => 0
  | v :: rest => max v.2 (maxBandwidth rest)

theorem selectVariant_aux_val (vs : List (String × Nat)) (acc : String × Nat) :
    (vs.foldl (fun acc v => if acc.2 < v.2 then v else acc) acc).2
      = max acc.2 (maxBandwidth vs) := by
  induction vs generalizing acc with
  | nil => simp [maxBandwidth]
  | cons v rest ih =>
    simp only [List.foldl_cons, maxBandwidth]
    rw [ih]
    by_cases h : acc.2 < v.2
    · rw [if_pos h, max_eq_right (le_trans (le_of_lt h) (le_max_left _ _))]
    · rw [if_neg h, ← max_assoc, max_eq_left (le_of_not_lt h)]

theorem selectVariant_aux_stay (vs : List (String × Nat)) (acc : String × Nat)
    (h : maxBandwidth vs ≤ acc.2) :
    vs.foldl (fun acc v => if acc.2 < v.2 then v else acc) acc = acc := by
  induction vs generalizing acc with
  | nil => rfl
  | cons v rest ih =>
    simp only [maxBandwidth] at h
    simp only [List.foldl_cons]
    have h1 : ¬ acc.2 < v.2 := not_lt.mpr (le_trans (le_max_left _ _) h)
    rw [if_neg h1]
    exact ih acc (le_trans (le_max_right _ _) h)

theorem selectVariant_first_max (vs : List (String × Nat)) (acc : String × Nat)
    (h : acc.2 < maxBandwidth vs) :
    vs.find? (fun v => maxBandwidth vs ≤ v.2)
      = some (vs.foldl (fun acc v => if acc.2 < v.2 then v else acc) acc) := by
  induction vs generalizing acc with
  | nil =>
    simp only [maxBandwidth] at h
    exact absurd h (Nat.not_lt_zero _)
  | cons v rest ih =>
    by_cases hv : maxBandwidth rest ≤ v.2
    · have hmax : maxBandwidth (v :: rest) = v.2 := max_eq_left hv
      simp only [hmax] at h ⊢
      have hpred : (decide (v.2 ≤ v.2)) = true := by simp
      simp only [List.find?, List.foldl_cons, hpred]
      rw [if_pos h, selectVariant_aux_stay rest v hv]
    · have hmax : maxBandwidth (v :: rest) = maxBandwidth rest :=
        max_eq_right (Nat.le_of_lt (Nat.lt_of_not_le hv))
      simp only [hmax] at h ⊢
      have hpred : (decide (maxBandwidth rest ≤ v.2)) = false := decide_eq_false hv
      simp only [List.find?, List.foldl_cons, hpred]
      by_cases hacc : acc.2 < v.2
      · rw [if_pos hacc]
        exact ih v (Nat.lt_of_not_le hv)
      · rw [if_neg hacc]
        exact ih acc h

/-- C9 counterexample: a selector manifest whose two renditions both
declare bandwidth 0 makes the source select the empty URI instead of the
first-seen rendition u1 that maximum-bandwidth selection with a first-seen
tie-break would pick. -/
theorem selectVariant_all_zero_counterexample :
    ¬ (selectVariant [("u1", 0), ("u2", 0)]).1 = "u1" := by
  decide

/-- C9 amended: provided some rendition declares positive bandwidth, the
selection loop picks the first-seen rendition attaining the maximum
declared bandwidth (so ties go to the first-seen one), and the resolver
recurses on the absolute URI of that rendition; with all bandwidths 0 the
selected URI is empty instead. -/
theorem selectVariant_max_first_seen (resolveRef : String → String → Option String)
    (fetch : String → FetchResult) (fuel : Nat) (url : String) (st : DownloadProcessState)
    (vs : List (String × Nat)) (m : String)
    (hpos : 0 < maxBandwidth vs)
    (hm : fetch url = FetchResult.body (Except.ok (Playlist.master vs)))
    (habs : getAbsoluteUri resolveRef url (selectVariant vs).1 = some m) :
    vs.find? (fun v => maxBandwidth vs ≤ v.2) = some (selectVariant vs)
    ∧ getPlaylist resolveRef fetch (fuel + 1) url st
      = (Event.fetch url :: Event.printLine ("master m3u8 url " ++ m)
          :: (getPlaylist resolveRef fetch fuel m st).1,
         (getPlaylist resolveRef fetch fuel m st).2) := by
  constructor
  · exact selectVariant_first_max vs ("", 0) hpos
  · simp [getPlaylist, hm, habs]

/-- Manifest oracle serving a selector manifest with renditions of
bandwidth 500, 2000 and 1200 and the closed media playlist behind the
2000 rendition. -/
def masterOracle : String → FetchResult := fun u =>
  if u = "http://h/master.m3u8" then
    FetchResult.body (Except.ok (Playlist.master
      [("http://h/u500.m3u8", 500), ("http://h/u2000.m3u8", 2000),
       ("http://h/u1200.m3u8", 1200)]))
  else if u = "http://h/u2000.m3u8" then
    FetchResult.body (Except.ok (Playlist.media ["http://h/s1.ts"] true 4))
  else FetchResult.connError

/-- C9 amended witness: among bandwidths 500, 2000 and 1200 the resolver
follows the URI of the 2000 rendition. -/
theorem selectVariant_max_first_seen_witness :
    0 < maxBandwidth [("http://h/u500.m3u8", 500), ("http://h/u2000.m3u8", 2000),
        ("http://h/u1200.m3u8", 1200)]
    ∧ ([("http://h/u500.m3u8", 500), ("http://h/u2000.m3u8", 2000),
        ("http://h/u1200.m3u8", 1200)].find?
          (fun v => maxBandwidth [("http://h/u500.m3u8", 500), ("http://h/u2000.m3u8", 2000),
              ("http://h/u1200.m3u8", 1200)] ≤ v.2)
        = some (selectVariant [("http://h/u500.m3u8", 500), ("http://h/u2000.m3u8", 2000),
            ("http://h/u1200.m3u8", 1200)])
       ∧ getPlaylist (fun _ _ => none) masterOracle 2 "http://h/master.m3u8" emptyProcess
        = (Event.fetch "http://h/master.m3u8"
            :: Event.printLine ("master m3u8 url " ++ "http://h/u2000.m3u8")
            :: (getPlaylist (fun _ _ => none) masterOracle 1 "http://h/u2000.m3u8" emptyProcess).1,
           (getPlaylist (fun _ _ => none) masterOracle 1 "http://h/u2000.m3u8" emptyProcess).2)) :=
  ⟨by decide,
   selectVariant_max_first_seen (fun _ _ => none) masterOracle 1 "http://h/master.m3u8"
     emptyProcess _ "http://h/u2000.m3u8" (by decide) rfl rfl⟩

/-- Outcome of the tail of a run path: whether the checkpoint was written,
whether the merge ran, the merge error if any, and the process exit code. -/
structure RunOutcome where
  checkpointPersisted : Bool
  mergeAttempted : Bool
  mergeError : Option String
  exitCode : Nat
  deriving DecidableEq

/-- writeAndMergeFile from the source: writeJsonFile persists the
checkpoint, then mergeMediaFile concatenates the segment files. -/
def writeAndMergeFile (fs : String → Option (List Nat)) (mediaList : List String) :
    Bool × (List Nat × Option String) :=
  (true, mergeMediaFile fs mediaList)

/-- Tail of downloadFunc after the fetch pool drains: bar.Finish, then
writeAndMergeFile, then os.Exit(0) unconditionally; a merge failure is
printed inside mergeMediaFile but never propagated to the exit status. -/
def downloadFuncExit (fs : String → Option (List Nat)) (mediaList : List String) : RunOutcome :=
  let w := writeAndMergeFile fs mediaList
  ⟨w.1, true, w.2.2, 0⟩

/-- listenSignal from the source: on any subscribed signal it prints a
message, persists the checkpoint with writeJsonFile, and calls os.Exit(0)
without attempting a merge. -/
def listenSignalOutcome : RunOutcome := ⟨true, false, none, 0⟩

/-- C7 counterexample: with segment a.ts never fetched the merge reports
an error, yet the completion path still exits with status 0, and a
signal-triggered interruption also exits with status 0, against the
claimed non-zero exits on those fatal conditions. -/
theorem exitCode_zero_counterexample :
    (downloadFuncExit (fun _ => none) ["a.ts"]).mergeError = some "a.ts"
    ∧ (downloadFuncExit (fun _ => none) ["a.ts"]).exitCode = 0
    ∧ listenSignalOutcome.exitCode = 0 :=
  ⟨rfl, rfl, rfl⟩

/-- C7 amended: on the paths the claim names the exit status is always 0:
the completion path persists the checkpoint and exits 0 whether or not the
merge reported an error, and the signal path persists the checkpoint,
skips the merge, and also exits 0. -/
theorem exitCode_always_zero (fs : String → Option (List Nat)) (mediaList : List String) :
    (downloadFuncExit fs mediaList).exitCode = 0
    ∧ (downloadFuncExit fs mediaList).checkpointPersisted = true
    ∧ (downloadFuncExit fs mediaList).mergeError = (mergeMediaFile fs mediaList).2
    ∧ listenSignalOutcome = ⟨true, false, none, 0⟩ :=
  ⟨rfl, rfl, rfl, rfl⟩

/-- Result of the getContinuePlaylist pass. -/
structure ContinueResult where
  emitted : List String
  barInc : Nat
  closedChan : Bool
  fetches : Nat
  deriving DecidableEq

/-- Loop of getContinuePlaylist: one pass over the MediaStatus entries,
sending Path ++ name to the channel for an incomplete entry and advancing
the progress bar for a complete one. -/
def continueLoop (path : String) : List (String × Bool) → List String × Nat
  | [] => ([], 0)
  | (k, v) :: rest =>
    let r := continueLoop path rest
    if v then (r.1, r.2 + 1) else ((path ++ k) :: r.1, r.2)

/-- getContinuePlaylist from the source: no manifest fetch is performed,
each incomplete MediaStatus entry is emitted as Path ++ name, each
complete one only advances the progress bar, and the channel is closed at
the end of the pass. -/
def getContinuePlaylist (dp : DownloadProcessState) : ContinueResult :=
  let r := continueLoop dp.Path dp.MediaStatus
  ⟨r.1, r.2, true, 0⟩

/-- Run paths of downloadFunc. -/
inductive RunPath where
  | fresh
  | resume
  deriving DecidableEq

/-- Start-of-run dispatch of downloadFunc: a fresh download (getPlaylist)
when no checkpoint file exists, a resume via getContinuePlaylist when the
loaded checkpoint has a non-empty MediaList, and a fresh download again
when the loaded MediaList is empty. -/
def downloadFuncDispatch (checkpointExists : Bool) (loaded : DownloadProcessState) : RunPath :=
  if checkpointExists then
    if loaded.MediaList.length > 0 then RunPath.resume else RunPath.fresh
  else RunPath.fresh

theorem continueLoop_emitted (path : String) (entries : List (String × Bool)) :
    (continueLoop path entries).1
      = (entries.filter (fun kv => kv.2 = false)).map (fun kv => path ++ kv.1) := by
  induction entries with
  | nil => rfl
  | cons kv rest ih =>
    obtain ⟨k, v⟩ := kv
    cases v <;> simp [continueLoop, ih, List.filter]

theorem continueLoop_barInc (path : String) (entries : List (String × Bool)) :
    (continueLoop path entries).2 = (entries.filter (fun kv => kv.2)).length := by
  induction entries with
  | nil => rfl
  | cons kv rest ih =>
    obtain ⟨k, v⟩ := kv
    cases v <;> simp [continueLoop, ih, List.filter]

/-- With distinct keys, membership of an entry and the lookup answer
coincide. -/
theorem mem_iff_lookupA {β : Type} (l : List (String × β))
    (hnd : (l.map Prod.fst).Nodup) (k : String) (v : β) :
    (k, v) ∈ l ↔ lookupA l k = some v := by
  induction l with
  | nil => simp [lookupA]
  | cons kv rest ih =>
    obtain ⟨k', v'⟩ := kv
    simp only [List.map_cons, List.nodup_cons] at hnd
    simp only [List.mem_cons, lookupA]
    constructor
    · rintro (heq | hmem)
      · obtain ⟨h1, h2⟩ := Prod.mk.injEq .. ▸ heq
        rw [if_pos h1.symm, h2]
      · have hk : ¬ k' = k := by
          intro hcontra
          exact hnd.1 (hcontra ▸ List.mem_map_of_mem Prod.fst hmem)
        rw [if_neg hk]
        exact (ih hnd.2).mp hmem
    · intro hlook
      by_cases hk : k' = k
      · rw [if_pos hk] at hlook
        obtain rfl := Option.some.injEq .. ▸ hlook
        exact Or.inl (by rw [hk])
      · rw [if_neg hk] at hlook
        exact Or.inr ((ih hnd.2).mpr hlook)

/-- Appending a fixed prefix is injective on strings. -/
theorem string_append_cancel {p a b : String} (h : p ++ a = p ++ b) : a = b := by
  have hd : (p ++ a).data = (p ++ b).data := congrArg String.data h
  simp only [String.data_append] at hd
  cases a with
  | mk da =>
    cases b with
    | mk db => exact congrArg String.mk (List.append_cancel_left hd)

/-- C8: with a checkpoint whose MediaStatus keys enumerate the (duplicate
free) MediaList, downloadFunc resumes without fetching the manifest when
MediaList is non-empty and starts fresh when it is empty; the resume pass
performs no fetch, closes the channel, emits exactly one descriptor
Path ++ name per MediaList entry whose status is false (none twice), and
counts the complete entries toward progress without emitting them. -/
theorem getContinuePlaylist_resume (dp : DownloadProcessState)
    (hkeys : (dp.MediaStatus.map Prod.fst).Perm dp.MediaList)
    (hnd : dp.MediaList.Nodup) :
    (dp.MediaList ≠ [] → downloadFuncDispatch true dp = RunPath.resume)
    ∧ (dp.MediaList = [] → downloadFuncDispatch true dp = RunPath.fresh)
    ∧ (getContinuePlaylist dp).fetches = 0
    ∧ (getContinuePlaylist dp).closedChan = true
    ∧ (∀ u, u ∈ (getContinuePlaylist dp).emitted
        ↔ ∃ n, n ∈ dp.MediaList ∧ lookupA dp.MediaStatus n = some false ∧ u = dp.Path ++ n)
    ∧ (getContinuePlaylist dp).emitted.Nodup
    ∧ (getContinuePlaylist dp).barInc = (dp.MediaStatus.filter (fun kv => kv.2)).length := by
  have hknd : (dp.MediaStatus.map Prod.fst).Nodup := hkeys.nodup_iff.mpr hnd
  refine ⟨?_, ?_, rfl, rfl, ?_, ?_, ?_⟩
  · intro hne
    have hpos : dp.MediaList.length > 0 := List.length_pos.mpr hne
    simp [downloadFuncDispatch, hpos]
  · intro hnil
    simp [downloadFuncDispatch, hnil]
  · intro u
    show u ∈ (continueLoop dp.Path dp.MediaStatus).1 ↔ _
    rw [continueLoop_emitted]
    simp only [List.mem_map, List.mem_filter, decide_eq_true_eq]
    constructor
    · rintro ⟨⟨k, v⟩, ⟨hmem, hv⟩, rfl⟩
      subst hv
      refine ⟨k, ?_, (mem_iff_lookupA _ hknd k false).mp hmem, rfl⟩
      exact hkeys.mem_iff.mp (List.mem_map_of_mem Prod.fst hmem)
    · rintro ⟨n, hnl, hlook, rfl⟩
      exact ⟨(n, false), ⟨(mem_iff_lookupA _ hknd n false).mpr hlook, rfl⟩, rfl⟩
  · show ((continueLoop dp.Path dp.MediaStatus).1).Nodup
    rw [continueLoop_emitted]
    have hsub : ((dp.MediaStatus.filter (fun kv => kv.2 = false)).map Prod.fst).Sublist
        (dp.MediaStatus.map Prod.fst) :=
      (List.filter_sublist dp.MediaStatus).map Prod.fst
    have hfnd : ((dp.MediaStatus.filter (fun kv => kv.2 = false)).map Prod.fst).Nodup :=
      hknd.sublist hsub
    have hrw : (dp.MediaStatus.filter (fun kv => kv.2 = false)).map (fun kv => dp.Path ++ kv.1)
        = ((dp.MediaStatus.filter (fun kv => kv.2 = false)).map Prod.fst).map
            (fun n => dp.Path ++ n) := by
      rw [List.map_map]
      exact rfl
    rw [hrw]
    exact hfnd.map (fun a b hab => string_append_cancel hab)
  · show (continueLoop dp.Path dp.MediaStatus).2 = _
    exact continueLoop_barInc dp.Path dp.MediaStatus

/-- Concrete checkpoint used by the C8 witness: segment a.ts incomplete,
segment b.ts complete, MediaStatus iterated in an order different from
MediaList. -/
def resumeCheckpoint : DownloadProcessState :=
  ⟨"http://h/", [("b.ts", true), ("a.ts", false)], ["a.ts", "b.ts"], []⟩

/-- C8 witness: on the concrete checkpoint the run resumes, only the
incomplete segment a.ts is emitted (as Path ++ name), and the complete
one advances the progress bar. -/
theorem getContinuePlaylist_resume_witness :
    ((resumeCheckpoint.MediaStatus.map Prod.fst).Perm resumeCheckpoint.MediaList
      ∧ resumeCheckpoint.MediaList.Nodup)
    ∧ downloadFuncDispatch true resumeCheckpoint = RunPath.resume
    ∧ ("http://h/" ++ "a.ts") ∈ (getContinuePlaylist resumeCheckpoint).emitted
    ∧ (getContinuePlaylist resumeCheckpoint).barInc
        = (resumeCheckpoint.MediaStatus.filter (fun kv => kv.2)).length :=
  ⟨⟨by decide, by decide⟩,
   (getContinuePlaylist_resume resumeCheckpoint (by decide) (by decide)).1 (by decide),
   ((getContinuePlaylist_resume resumeCheckpoint (by decide) (by decide)).2.2.2.2.1
     ("http://h/" ++ "a.ts")).mpr ⟨"a.ts", by decide, by decide, rfl⟩,
   (getContinuePlaylist_resume resumeCheckpoint (by decide) (by decide)).2.2.2.2.2.2⟩

/-- load from the source: ioutil.ReadFile then json.Unmarshal into the
process state, returning on either error and reporting nothing to the
caller.  The decoder collaborator follows the documented encoding/json
contract: it receives the current state and returns the state it left
behind together with the error, if any.  A read failure or a JSON syntax
error leaves the state untouched, while a type error may leave the fields
that were decoded before the failure populated (partial population); load
swallows the error either way, so its reported component is always none. -/
def load (readResult : Except String (List Nat))
    (unmarshal : List Nat → DownloadProcessState → DownloadProcessState × Option String)
    (v : DownloadProcessState) : DownloadProcessState × Option String :=
  match readResult with
  | Except.error _ => (v, none)
  | Except.ok data =>
    let r := unmarshal data v
    (r.1, none)

/-- Decoder behavior, per the documented encoding/json semantics, on a
checkpoint body that is valid JSON of the wrong shape: a MediaList array
holding the one name a.ts followed by a number where the MediaStatus
object should be.  The well-typed MediaList field is decoded first, then
the type error on MediaStatus is returned with the already-decoded field
left in place. -/
def wrongShapeUnmarshal : List Nat → DownloadProcessState → DownloadProcessState × Option String :=
  fun _ v =>
    (⟨v.Path, v.MediaStatus, ["a.ts"], v.status⟩,
     some "cannot unmarshal number into field MediaStatus")

/-- C10 counterexample: a readable checkpoint file whose body is valid
JSON of the wrong shape (MediaList an array of one name, MediaStatus a
number).  json.Unmarshal populates MediaList before returning the type
error, load swallows the error, and downloadFunc takes the resume branch
on the partial data: the state is not left empty and the run does not
proceed as a fresh download, against the claim. -/
theorem load_wrong_shape_counterexample :
    (load (Except.ok [1]) wrongShapeUnmarshal emptyProcess).2 = none
    ∧ (load (Except.ok [1]) wrongShapeUnmarshal emptyProcess).1.MediaList = ["a.ts"]
    ∧ downloadFuncDispatch true (load (Except.ok [1]) wrongShapeUnmarshal emptyProcess).1
        = RunPath.resume
    ∧ ¬ downloadFuncDispatch true (load (Except.ok [1]) wrongShapeUnmarshal emptyProcess).1
        = RunPath.fresh := by
  decide

/-- C10 amended: loading never reports a checkpoint error; an unreadable
file, and a body the decoder rejects without touching the state (a JSON
syntax error or a top-level type mismatch), leave the state empty and
send downloadFunc down the fresh branch that fetches the manifest anew;
but a wrong-shaped body the decoder partially populates before failing
keeps the decoded fields, and when MediaList came out non-empty the run
resumes on the partial data instead. -/
theorem load_error_silently_fresh (readResult : Except String (List Nat))
    (unmarshal : List Nat → DownloadProcessState → DownloadProcessState × Option String) :
    (load readResult unmarshal emptyProcess).2 = none
    ∧ ((∃ e, readResult = Except.error e) →
        load readResult unmarshal emptyProcess = (emptyProcess, none)
        ∧ downloadFuncDispatch true (load readResult unmarshal emptyProcess).1 = RunPath.fresh)
    ∧ (∀ d, readResult = Except.ok d → (unmarshal d emptyProcess).1 = emptyProcess →
        downloadFuncDispatch true (load readResult unmarshal emptyProcess).1 = RunPath.fresh)
    ∧ (∀ d, readResult = Except.ok d → (unmarshal d emptyProcess).1.MediaList ≠ [] →
        downloadFuncDispatch true (load readResult unmarshal emptyProcess).1 = RunPath.resume) := by
  refine ⟨?_, ?_, ?_, ?_⟩
  · cases readResult <;> rfl
  · rintro ⟨e, rfl⟩
    exact ⟨rfl, rfl⟩
  · rintro d rfl hst
    show downloadFuncDispatch true (unmarshal d emptyProcess).1 = RunPath.fresh
    rw [hst]
    rfl
  · rintro d rfl hne
    show downloadFuncDispatch true (unmarshal d emptyProcess).1 = RunPath.resume
    have hpos : 0 < (unmarshal d emptyProcess).1.MediaList.length := List.length_pos.mpr hne
    simp [downloadFuncDispatch, hpos]

/-- C10 amended witness: an unreadable checkpoint file resumes nothing and
starts fresh, while the wrong-shaped decodable one resumes on the
partially populated MediaList. -/
theorem load_error_silently_fresh_witness :
    ((Except.error "read failure" : Except String (List Nat)) = Except.error "read failure")
    ∧ (wrongShapeUnmarshal [1] emptyProcess).1.MediaList ≠ []
    ∧ load (Except.error "read failure") wrongShapeUnmarshal emptyProcess = (emptyProcess, none)
    ∧ downloadFuncDispatch true
        (load (Except.error "read failure") wrongShapeUnmarshal emptyProcess).1 = RunPath.fresh
    ∧ downloadFuncDispatch true
        (load (Except.ok [1]) wrongShapeUnmarshal emptyProcess).1 = RunPath.resume :=
  ⟨rfl, by decide,
   ((load_error_silently_fresh (Except.error "read failure") wrongShapeUnmarshal).2.1
     ⟨"read failure", rfl⟩).1,
   ((load_error_silently_fresh (Except.error "read failure") wrongShapeUnmarshal).2.1
     ⟨"read failure", rfl⟩).2,
   (load_error_silently_fresh (Except.ok [1]) wrongShapeUnmarshal).2.2.2 [1] rfl (by decide)⟩

end M3u8load
